import Mathlib

/-!
Shallow embedding of `src/bot.py` (auto-forwarding bot) and proofs about
its forwarding core.

The embedded parts are:

* the content-field dispatch of `copy_message_to_channel` (which message
  field is populated decides which transport send is issued; an
  unpopulated message hits the final `else` and is skipped),
* the bounded retry loop of `copy_message_to_channel` with its four
  exception arms (`RetryAfter`, `TimedOut`, `TelegramError` split into
  permanent / transient by substring vocabulary, bare `Exception`),
* the batch loop of `forward_message` (`range(0, n, BATCH_SIZE)` slicing,
  `asyncio.gather(..., return_exceptions=True)` counting, the
  inter-batch 1-second pacing guarded by `i + BATCH_SIZE < len(...)`),
* the end-of-run stats update and the high-failure-rate admin alert,
* `update_channel_stats` (registry row mutation) and the two batch-size
  configuration paths (`BATCH_SIZE` env read, `/setbatch`).

Transport effects (sends, sleeps, registry writes) are recorded in
explicit traces; the transport's behaviour at each attempt is an
environment parameter.  The float comparison `failed / total > 0.3` is
embedded as the exact rational comparison `10 * failed > 3 * total`.
-/

namespace AutoForward

/-- Which content fields of the inbound message are populated.
`copy_message_to_channel` and the `msg_type` block of `forward_message`
test these fields with `if`/`elif` chains. -/
structure Message where
  text : Bool
  photo : Bool
  video : Bool
  document : Bool
  audio : Bool
  voice : Bool
  video_note : Bool
  sticker : Bool
  animation : Bool
  poll : Bool
  location : Bool
  contact : Bool
  deriving DecidableEq

/-- Content kinds distinguished by the dispatch chain of
`copy_message_to_channel`, plus the `else` fallthrough. -/
inductive ContentKind
  | text
  | photo
  | video
  | document
  | audio
  | voice
  | videoNote
  | sticker
  | animation
  | poll
  | location
  | contact
  | unsupported
  deriving DecidableEq

/-- First-match classification in the order of the `if`/`elif` chain of
`copy_message_to_channel` (text > photo > video > document > audio >
voice > video-note > sticker > animation > poll > location > contact). -/
def classify (m : Message) : ContentKind :=
  if m.text then ContentKind.text
  else if m.photo then ContentKind.photo
  else if m.video then ContentKind.video
  else if m.document then ContentKind.document
  else if m.audio then ContentKind.audio
  else if m.voice then ContentKind.voice
  else if m.video_note then ContentKind.videoNote
  else if m.sticker then ContentKind.sticker
  else if m.animation then ContentKind.animation
  else if m.poll then ContentKind.poll
  else if m.location then ContentKind.location
  else if m.contact then ContentKind.contact
  else ContentKind.unsupported

/-- True when some branch of the dispatch chain fires, i.e. the message
does not reach the final `else` of `copy_message_to_channel`. -/
def Message.supported (m : Message) : Bool :=
  m.text || m.photo || m.video || m.document || m.audio || m.voice ||
  m.video_note || m.sticker || m.animation || m.poll || m.location || m.contact

/-- Result of one transport send attempt, as seen by the retry loop:
success, or one of the exception classes it catches.  `retryAfterSig`
carries `e.retry_after`; `tgError` carries `str(e)`. -/
inductive TransportResult
  | ok
  | retryAfterSig (wait : Nat)
  | timedOutSig
  | tgError (msg : String)
  | otherExc
  deriving DecidableEq

/-- Character-list prefix test (substring machinery for the permanent
error vocabulary check `err in error_msg`). -/
def hasPrefixChars : List Char → List Char → Bool
  | [], _ => true
  | _ :: _, [] => false
  | p :: ps, c :: cs => (p = c) && hasPrefixChars ps cs

/-- Character-list substring occurrence test. -/
def hasSubChars (pat : List Char) : List Char → Bool
  | [] => pat.isEmpty
  | c :: cs => hasPrefixChars pat (c :: cs) || hasSubChars pat cs

/-- `pat in s` on strings (Python substring containment). -/
def containsSub (s pat : String) : Bool :=
  hasSubChars pat.data s.data

/-- Per-character lowercasing (`str.lower()`; the vocabulary and the
error texts involved are ASCII). -/
def lowerStr (s : String) : String :=
  ⟨s.data.map Char.toLower⟩

/-- The permanent-failure vocabulary of `copy_message_to_channel`. -/
def permanentPhrases : List String :=
  [r"chat not found", r"bot was kicked", r"not a member", r"have no rights"]

/-- `any(err in error_msg for err in [...])` applied to
`error_msg = str(e).lower()`. -/
def isPermanentMsg (s : String) : Bool :=
  permanentPhrases.any (fun p => containsSub (lowerStr s) p)

/-- Which return point of `copy_message_to_channel` produced the final
`True`/`False`.  The code's distinct return sites (success, unsupported
`else`, permanent `TelegramError`, bare `Exception`, post-loop
exhaustion) are kept apart; the Python return value is `True` exactly
for `delivered`. -/
inductive CopyExit
  | delivered
  | unsupportedKind
  | permanentFailure
  | unexpectedError
  | exhausted
  deriving DecidableEq

/-- Observable trace of one `copy_message_to_channel` call: number of
transport sends dispatched, the sleeps performed in order (seconds), the
number of `update_channel_stats` calls, and the exit taken. -/
structure CopyTrace where
  sends : Nat
  sleeps : List Nat
  statUpdates : Nat
  result : CopyExit
  deriving DecidableEq

/-- The retry loop body of `copy_message_to_channel`, recursing on the
remaining iterations of `for attempt in range(retries)`.  `attempt` is
the current index, `fuel` the number of iterations left
(`fuel = retries - attempt` at every reachable call).  `env attempt` is
what the transport send raises (or not) on that attempt. -/
def copyGo (m : Message) (env : Nat → TransportResult) (retries : Nat) :
    Nat → Nat → CopyTrace
  | _, 0 => ⟨0, [], 0, CopyExit.exhausted⟩
  | attempt, fuel + 1 =>
    if m.supported then
      match env attempt with
      | TransportResult.ok =>
        ⟨1, [], 1, CopyExit.delivered⟩
      | TransportResult.retryAfterSig w =>
        let rest := copyGo m env retries (attempt + 1) fuel
        ⟨1 + rest.sends, (w + 1) :: rest.sleeps, rest.statUpdates, rest.result⟩
      | TransportResult.timedOutSig =>
        let rest := copyGo m env retries (attempt + 1) fuel
        ⟨1 + rest.sends, 2 :: rest.sleeps, rest.statUpdates, rest.result⟩
      | TransportResult.tgError msg =>
        if isPermanentMsg msg then
          ⟨1, [], 0, CopyExit.permanentFailure⟩
        else
          let rest := copyGo m env retries (attempt + 1) fuel
          ⟨1 + rest.sends, (if attempt < retries - 1 then [1] else []) ++ rest.sleeps,
            rest.statUpdates, rest.result⟩
      | TransportResult.otherExc =>
        ⟨1, [], 0, CopyExit.unexpectedError⟩
    else
      ⟨0, [], 0, CopyExit.unsupportedKind⟩

/-- `copy_message_to_channel(bot, message, channel_id, retries)`;
the code always calls it with the default `retries=5`. -/
def copy_message_to_channel (m : Message) (env : Nat → TransportResult)
    (retries : Nat) : CopyTrace :=
  copyGo m env retries 0 retries

/-- A row of the `channels` table touched by `update_channel_stats`. -/
structure ChannelRow where
  total_forwards : Nat
  last_forward : Option Nat
  deriving DecidableEq

/-- `update_channel_stats(channel_id)`: one row gets
`total_forwards + 1` and `last_forward = now`; other rows unchanged. -/
def update_channel_stats (db : String → ChannelRow) (channel_id : String)
    (now : Nat) : String → ChannelRow :=
  fun c =>
    if c = channel_id then ⟨(db channel_id).total_forwards + 1, some now⟩
    else db c

/-- Apply `k` `update_channel_stats` calls for one channel. -/
def applyStatUpdates (db : String → ChannelRow) (channel_id : String)
    (now : Nat) : Nat → (String → ChannelRow)
  | 0 => db
  | k + 1 => update_channel_stats (applyStatUpdates db channel_id now k) channel_id now

/-- What one gathered copier task contributes to
`results = await asyncio.gather(*tasks, return_exceptions=True)`:
returned `True`, returned `False`, or raised (the exception object is
returned as the result value). -/
inductive TaskResult
  | ok
  | failed
  | exc
  deriving DecidableEq

/-- Observable scheduler event of `forward_message`: dispatching one
batch of copy tasks, or the 1-second inter-batch pacing sleep. -/
inductive RunEvent
  | dispatchBatch (chs : List String)
  | pace
  deriving DecidableEq

/-- Trace of one `forward_message` run: events in order plus the
`successful` / `failed` accumulators. -/
structure RunTrace where
  events : List RunEvent
  successful : Nat
  failed : Nat
  deriving DecidableEq

/-- The slices `TARGET_CHANNELS[i:i+BATCH_SIZE]` produced by
`for i in range(0, len(TARGET_CHANNELS), BATCH_SIZE)`, as a recursion on
the remaining suffix; `fuel` bounds the recursion (instantiated with the
list length, which suffices whenever `1 ≤ b`). -/
def chunksAux {α : Type} (b : Nat) : Nat → List α → List (List α)
  | 0, _ => []
  | _, [] => []
  | fuel + 1, x :: xs => ((x :: xs).take b) :: chunksAux b fuel ((x :: xs).drop b)

/-- The ordered batch partition of a destination list. -/
def chunks {α : Type} (b : Nat) (xs : List α) : List (List α) :=
  chunksAux b xs.length xs

/-- The batch loop of `forward_message`.  `i` is the Python loop index,
`n = len(TARGET_CHANNELS)`; per batch it counts `r is True` results as
successes and the rest (returned `False` or raised) as failures, and
sleeps 1 second afterwards exactly when `i + BATCH_SIZE < n`. -/
def runBatchesAux (res : String → TaskResult) (b n : Nat) :
    Nat → Nat → List String → RunTrace
  | _, _, [] => ⟨[], 0, 0⟩
  | 0, _, _ :: _ => ⟨[], 0, 0⟩
  | fuel + 1, i, x :: xs =>
    let batch := (x :: xs).take b
    let batch_success := batch.countP (fun ch => res ch == TaskResult.ok)
    let batch_failed := batch.length - batch_success
    let rest := runBatchesAux res b n fuel (i + b) ((x :: xs).drop b)
    ⟨RunEvent.dispatchBatch batch ::
       ((if i + b < n then [RunEvent.pace] else []) ++ rest.events),
     batch_success + rest.successful,
     batch_failed + rest.failed⟩

/-- `forward_message`: early return when the reloaded channel snapshot
is empty, otherwise the batch loop over the whole snapshot. -/
def forward_message (channels : List String) (b : Nat)
    (res : String → TaskResult) : RunTrace :=
  if channels.length = 0 then ⟨[], 0, 0⟩
  else runBatchesAux res b channels.length channels.length 0 channels

/-- The batch contents carried by a list of scheduler events, in order. -/
def eventBatches : List RunEvent → List (List String)
  | [] => []
  | RunEvent.dispatchBatch g :: es => g :: eventBatches es
  | RunEvent.pace :: es => eventBatches es

/-- The batches dispatched by a run, in dispatch order. -/
def dispatchedBatches (t : RunTrace) : List (List String) :=
  eventBatches t.events

/-- All destinations for which a copy task was dispatched, in order. -/
def dispatchedChannels (t : RunTrace) : List String :=
  (dispatchedBatches t).flatten

/-- Total transport sends a run performs when every destination's copy
is `copy_message_to_channel` with the default budget of 5 attempts
(`envOf ch` being the transport behaviour at destination `ch`). -/
def runSends (m : Message) (envOf : String → Nat → TransportResult)
    (channels : List String) : Nat :=
  (channels.map (fun ch => (copy_message_to_channel m (envOf ch) 5).sends)).sum

/-- The global `stats` counters touched at the end of a run. -/
structure RunningStats where
  total_forwards : Nat
  successful_forwards : Nat
  failed_forwards : Nat
  messages_processed : Nat
  deriving DecidableEq

/-- What the admin-alert block did: how many alert sends were attempted
and how many alert-delivery errors were swallowed into the log. -/
structure AlertOutcome where
  alertsSent : Nat
  alertErrorsLogged : Nat
  deriving DecidableEq

/-- The alert block of `forward_message`: guarded by `ADMIN_ID` being
set and `len(TARGET_CHANNELS) > 0`, it sends one alert when
`failed / total > 0.3` (embedded exactly as `10 * failed > 3 * total`);
a failing alert send is caught and logged. -/
def alertPhase (adminConfigured : Bool) (total failed : Nat)
    (deliverFails : Bool) : AlertOutcome :=
  if adminConfigured = true ∧ 0 < total ∧ 10 * failed > 3 * total then
    ⟨1, if deliverFails then 1 else 0⟩
  else ⟨0, 0⟩

/-- End of `forward_message`: the global `stats` update (which happens
before and independently of the alert block) paired with the alert
block's outcome. -/
def finalize (st : RunningStats) (total successful failed : Nat)
    (adminConfigured deliverFails : Bool) : RunningStats × AlertOutcome :=
  (⟨st.total_forwards + total, st.successful_forwards + successful,
    st.failed_forwards + failed, st.messages_processed + 1⟩,
   alertPhase adminConfigured total failed deliverFails)

/-- `BATCH_SIZE = int(os.environ.get(..., '20'))`: the parsed
environment value when present, else the default 20.  No bounds check. -/
def initBatchSize : Option Int → Int
  | some v => v
  | none => 20

/-- The batch-size update of `setbatch_command`: values outside 1..50
are rejected and the current size kept. -/
def setbatchUpdate (current new_size : Int) : Int :=
  if new_size < 1 ∨ new_size > 50 then current else new_size

/-! ### Lemmas about the batch partition -/

/-- Ceiling-division step matching one iteration of the batch loop. -/
lemma ceilDiv_step (n b : Nat) (hb : 1 ≤ b) (hn : 1 ≤ n) :
    (n + b - 1) / b = ((n - b) + b - 1) / b + 1 := by
  have key : (n + b - 1) / b = (n - 1) / b + 1 := by
    conv_lhs => rw [Nat.div_eq]
    have hcond : 0 < b ∧ b ≤ n + b - 1 := ⟨hb, by omega⟩
    rw [if_pos hcond]
    have harg : n + b - 1 - b = n - 1 := by omega
    rw [harg]
  have key2 : ((n - b) + b - 1) / b = (n - 1) / b := by
    by_cases hnb : b ≤ n
    · have harg : n - b + b - 1 = n - 1 := by omega
      rw [harg]
    · have h0 : n - b = 0 := by omega
      rw [h0, Nat.div_eq_of_lt (by omega), Nat.div_eq_of_lt (by omega)]
  rw [key, key2]

lemma chunksAux_flatten {α : Type} (b : Nat) (hb : 1 ≤ b) :
    ∀ (fuel : Nat) (xs : List α), xs.length ≤ fuel →
      (chunksAux b fuel xs).flatten = xs := by
  intro fuel
  induction fuel with
  | zero =>
    intro xs h
    have hx : xs = [] := List.length_eq_zero.mp (Nat.le_zero.mp h)
    subst hx
    simp [chunksAux]
  | succ f ih =>
    intro xs h
    cases xs with
    | nil => simp [chunksAux]
    | cons x l =>
      have hlen : ((x :: l).drop b).length ≤ f := by
        simp only [List.length_drop, List.length_cons] at *
        omega
      simp [chunksAux, ih _ hlen, List.take_append_drop]

lemma chunksAux_sizes {α : Type} (b : Nat) :
    ∀ (fuel : Nat) (xs : List α) (g : List α),
      g ∈ chunksAux b fuel xs → g.length ≤ b := by
  intro fuel
  induction fuel with
  | zero => intro xs g hg; simp [chunksAux] at hg
  | succ f ih =>
    intro xs g hg
    cases xs with
    | nil => simp [chunksAux] at hg
    | cons x l =>
      simp only [chunksAux, List.mem_cons] at hg
      rcases hg with rfl | hg
      · simp [List.length_take]
      · exact ih _ _ hg

lemma chunksAux_length {α : Type} (b : Nat) (hb : 1 ≤ b) :
    ∀ (fuel : Nat) (xs : List α), xs.length ≤ fuel →
      (chunksAux b fuel xs).length = (xs.length + b - 1) / b := by
  intro fuel
  induction fuel with
  | zero =>
    intro xs h
    have hx : xs = [] := List.length_eq_zero.mp (Nat.le_zero.mp h)
    subst hx
    simp [chunksAux]
    exact (Nat.div_eq_of_lt (by omega)).symm
  | succ f ih =>
    intro xs h
    cases xs with
    | nil =>
      simp [chunksAux]
      exact (Nat.div_eq_of_lt (by omega)).symm
    | cons x l =>
      have hlen : ((x :: l).drop b).length ≤ f := by
        simp only [List.length_drop, List.length_cons] at *
        omega
      simp only [chunksAux, List.length_cons]
      rw [ih _ hlen]
      rw [ceilDiv_step (l.length + 1) b hb (by omega)]
      simp [List.length_drop]

/-! ### Lemmas about the batch loop of `forward_message` -/

lemma runBatchesAux_successful (res : String → TaskResult) (b n : Nat) (hb : 1 ≤ b) :
    ∀ (fuel : Nat) (xs : List String) (i : Nat), xs.length ≤ fuel →
      (runBatchesAux res b n fuel i xs).successful
        = xs.countP (fun ch => res ch == TaskResult.ok) := by
  intro fuel
  induction fuel with
  | zero =>
    intro xs i h
    have hx : xs = [] := List.length_eq_zero.mp (Nat.le_zero.mp h)
    subst hx
    simp [runBatchesAux]
  | succ f ih =>
    intro xs i h
    cases xs with
    | nil => simp [runBatchesAux]
    | cons x l =>
      have hlen : ((x :: l).drop b).length ≤ f := by
        simp only [List.length_drop, List.length_cons] at *
        omega
      simp only [runBatchesAux]
      rw [ih _ _ hlen]
      conv_rhs => rw [← List.take_append_drop b (x :: l)]
      rw [List.countP_append]

lemma runBatchesAux_total (res : String → TaskResult) (b n : Nat) (hb : 1 ≤ b) :
    ∀ (fuel : Nat) (xs : List String) (i : Nat), xs.length ≤ fuel →
      (runBatchesAux res b n fuel i xs).successful
          + (runBatchesAux res b n fuel i xs).failed
        = xs.length := by
  intro fuel
  induction fuel with
  | zero =>
    intro xs i h
    have hx : xs = [] := List.length_eq_zero.mp (Nat.le_zero.mp h)
    subst hx
    simp [runBatchesAux]
  | succ f ih =>
    intro xs i h
    cases xs with
    | nil => simp [runBatchesAux]
    | cons x l =>
      have hlen : ((x :: l).drop b).length ≤ f := by
        simp only [List.length_drop, List.length_cons] at *
        omega
      have hcnt : ((x :: l).take b).countP (fun ch => res ch == TaskResult.ok)
          ≤ ((x :: l).take b).length := List.countP_le_length _
      have hsum := ih ((x :: l).drop b) (i + b) hlen
      have hsplit : ((x :: l).take b).length + ((x :: l).drop b).length
          = (x :: l).length := by
        simp [List.length_take, List.length_drop]
        omega
      simp only [runBatchesAux]
      omega

lemma runBatchesAux_batches (res : String → TaskResult) (b n : Nat) (hb : 1 ≤ b) :
    ∀ (fuel : Nat) (xs : List String) (i : Nat), xs.length ≤ fuel →
      eventBatches (runBatchesAux res b n fuel i xs).events = chunksAux b fuel xs := by
  intro fuel
  induction fuel with
  | zero =>
    intro xs i h
    have hx : xs = [] := List.length_eq_zero.mp (Nat.le_zero.mp h)
    subst hx
    simp [runBatchesAux, chunksAux, eventBatches]
  | succ f ih =>
    intro xs i h
    cases xs with
    | nil => simp [runBatchesAux, chunksAux, eventBatches]
    | cons x l =>
      have hlen : ((x :: l).drop b).length ≤ f := by
        simp only [List.length_drop, List.length_cons] at *
        omega
      by_cases hcond : i + b < n
      · simp [runBatchesAux, chunksAux, hcond, eventBatches, ih _ _ hlen]
      · simp [runBatchesAux, chunksAux, hcond, eventBatches, ih _ _ hlen]

lemma chunksAux_nil {α : Type} (b : Nat) :
    ∀ fuel, chunksAux b fuel ([] : List α) = [] := by
  intro fuel
  cases fuel <;> simp [chunksAux]

lemma runBatchesAux_events (res : String → TaskResult) (b : Nat) (hb : 1 ≤ b) (n : Nat) :
    ∀ (fuel : Nat) (xs : List String) (i : Nat),
      xs.length ≤ fuel → i + xs.length = n → xs ≠ [] →
      (runBatchesAux res b n fuel i xs).events =
        List.intersperse RunEvent.pace
          ((chunksAux b fuel xs).map RunEvent.dispatchBatch) := by
  intro fuel
  induction fuel with
  | zero =>
    intro xs i hlen _ hne
    exact absurd (List.length_eq_zero.mp (Nat.le_zero.mp hlen)) hne
  | succ f ih =>
    intro xs i hlen hn hne
    cases xs with
    | nil => exact absurd rfl hne
    | cons x l =>
      have hnl : i + (l.length + 1) = n := by
        simpa using hn
      by_cases hlast : (x :: l).length ≤ b
      · have hdrop : (x :: l).drop b = [] := List.drop_eq_nil_of_le hlast
        have hcond : ¬ i + b < n := by
          simp only [List.length_cons] at hlast
          omega
        simp [runBatchesAux, chunksAux, hcond, hdrop, chunksAux_nil]
      · push_neg at hlast
        have hlast' : b < l.length + 1 := by
          simpa using hlast
        have hcond : i + b < n := by omega
        have hdl : ((x :: l).drop b).length = l.length + 1 - b := by
          simp [List.length_drop]
        have hdroplen : ((x :: l).drop b).length ≤ f := by
          simp only [List.length_cons] at hlen
          omega
        have hdropne : (x :: l).drop b ≠ [] := by
          intro hnil
          have hl := congrArg List.length hnil
          rw [hdl] at hl
          simp only [List.length_nil] at hl
          omega
        have hih := ih ((x :: l).drop b) (i + b)
          hdroplen (by rw [hdl]; omega) hdropne
        obtain ⟨d, ds, hd⟩ : ∃ d ds, (x :: l).drop b = d :: ds := by
          cases hdd : (x :: l).drop b with
          | nil => exact absurd hdd hdropne
          | cons d ds => exact ⟨d, ds, rfl⟩
        obtain ⟨f', rfl⟩ : ∃ f', f = f' + 1 := by
          have h1 : 1 ≤ f := by
            rw [hd] at hdroplen
            simp only [List.length_cons] at hdroplen
            omega
          exact ⟨f - 1, by omega⟩
        have hih2 : (runBatchesAux res b n (f' + 1) (i + b) (d :: ds)).events
            = List.intersperse RunEvent.pace
                ((chunksAux b (f' + 1) (d :: ds)).map RunEvent.dispatchBatch) := by
          rw [← hd]
          exact hih
        have hstep : (runBatchesAux res b n (f' + 1 + 1) i (x :: l)).events
            = RunEvent.dispatchBatch ((x :: l).take b) ::
                ((if i + b < n then [RunEvent.pace] else []) ++
                  (runBatchesAux res b n (f' + 1) (i + b) ((x :: l).drop b)).events) := rfl
        rw [hstep, if_pos hcond, hd, hih2]
        simp only [chunksAux, hd, List.map_cons, List.intersperse_cons_cons,
          List.singleton_append]

/-! ### Lemmas about the per-destination copier -/

lemma supported_false_fields (m : Message) (hm : m.supported = false) :
    m.text = false ∧ m.photo = false ∧ m.video = false ∧ m.document = false ∧
    m.audio = false ∧ m.voice = false ∧ m.video_note = false ∧ m.sticker = false ∧
    m.animation = false ∧ m.poll = false ∧ m.location = false ∧ m.contact = false := by
  simp only [Message.supported, Bool.or_eq_false_iff] at hm
  tauto

lemma classify_unsupported_of_not_supported (m : Message) (hm : m.supported = false) :
    classify m = ContentKind.unsupported := by
  obtain ⟨h1, h2, h3, h4, h5, h6, h7, h8, h9, h10, h11, h12⟩ := supported_false_fields m hm
  simp [classify, h1, h2, h3, h4, h5, h6, h7, h8, h9, h10, h11, h12]

lemma copyGo_unsupported (m : Message) (hm : m.supported = false)
    (env : Nat → TransportResult) (retries : Nat) (attempt fuel : Nat) :
    copyGo m env retries attempt (fuel + 1) = ⟨0, [], 0, CopyExit.unsupportedKind⟩ := by
  simp [copyGo, hm]

lemma copy_unsupported (m : Message) (hm : m.supported = false)
    (env : Nat → TransportResult) (retries : Nat) (hr : 1 ≤ retries) :
    copy_message_to_channel m env retries = ⟨0, [], 0, CopyExit.unsupportedKind⟩ := by
  obtain ⟨r, rfl⟩ : ∃ r, retries = r + 1 := ⟨retries - 1, by omega⟩
  exact copyGo_unsupported m hm env (r + 1) 0 r

lemma copyGo_statUpdates (m : Message) (env : Nat → TransportResult) (retries : Nat) :
    ∀ (fuel attempt : Nat),
      (copyGo m env retries attempt fuel).statUpdates
        = if (copyGo m env retries attempt fuel).result = CopyExit.delivered then 1
          else 0 := by
  intro fuel
  induction fuel with
  | zero => intro attempt; simp [copyGo]
  | succ f ih =>
    intro attempt
    by_cases hm : m.supported = true
    · rcases hE : env attempt with _ | w | _ | msg | _
      · simp [copyGo, hm, hE]
      · simp [copyGo, hm, hE, ih]
      · simp [copyGo, hm, hE, ih]
      · by_cases hp : isPermanentMsg msg = true
        · simp [copyGo, hm, hE, hp]
        · simp [copyGo, hm, hE, hp, ih]
      · simp [copyGo, hm, hE]
    · rw [Bool.not_eq_true] at hm
      simp [copyGo, hm]

/-- The transport outcomes on which the retry loop continues to the next
attempt (no `return` is executed). -/
def retryable : TransportResult → Bool
  | TransportResult.retryAfterSig _ => true
  | TransportResult.timedOutSig => true
  | TransportResult.tgError msg => !isPermanentMsg msg
  | _ => false

lemma copyGo_permanent (m : Message) (env : Nat → TransportResult) (retries : Nat)
    (hm : m.supported = true) :
    ∀ (fuel k a : Nat) (msg : String), k < fuel →
      env (a + k) = TransportResult.tgError msg →
      isPermanentMsg msg = true →
      (∀ j, j < k → retryable (env (a + j)) = true) →
      (copyGo m env retries a fuel).result = CopyExit.permanentFailure ∧
      (copyGo m env retries a fuel).sends = k + 1 ∧
      (copyGo m env retries a fuel).statUpdates = 0 := by
  intro fuel
  induction fuel with
  | zero => intro k a msg hk; omega
  | succ f ih =>
    intro k a msg hk henv hperm hpre
    cases k with
    | zero =>
      have henv' : env a = TransportResult.tgError msg := by simpa using henv
      simp [copyGo, hm, henv', hperm]
    | succ k' =>
      have h0 : retryable (env a) = true := by
        have := hpre 0 (Nat.succ_pos k')
        simpa using this
      have henv' : env (a + 1 + k') = TransportResult.tgError msg := by
        have harg : a + 1 + k' = a + (k' + 1) := by omega
        rw [harg]
        exact henv
      have hpre' : ∀ j, j < k' → retryable (env (a + 1 + j)) = true := by
        intro j hj
        have harg : a + 1 + j = a + (j + 1) := by omega
        rw [harg]
        exact hpre (j + 1) (by omega)
      have hrest := ih k' (a + 1) msg (by omega) henv' hperm hpre'
      rcases hE : env a with _ | w | _ | msg' | _
      · rw [hE] at h0; simp [retryable] at h0
      · refine ⟨?_, ?_, ?_⟩
        · simp [copyGo, hm, hE, hrest.1]
        · simp [copyGo, hm, hE, hrest.2.1]
          omega
        · simp [copyGo, hm, hE, hrest.2.2]
      · refine ⟨?_, ?_, ?_⟩
        · simp [copyGo, hm, hE, hrest.1]
        · simp [copyGo, hm, hE, hrest.2.1]
          omega
        · simp [copyGo, hm, hE, hrest.2.2]
      · have hp : isPermanentMsg msg' = false := by
          rw [hE] at h0
          simp [retryable] at h0
          exact h0
        refine ⟨?_, ?_, ?_⟩
        · simp [copyGo, hm, hE, hp, hrest.1]
        · simp [copyGo, hm, hE, hp, hrest.2.1]
          omega
        · simp [copyGo, hm, hE, hp, hrest.2.2]
      · rw [hE] at h0; simp [retryable] at h0

lemma copyGo_all_ratelimited (m : Message) (env : Nat → TransportResult)
    (retries w : Nat) (hm : m.supported = true)
    (henv : ∀ k, env k = TransportResult.retryAfterSig w) :
    ∀ (fuel a : Nat),
      copyGo m env retries a fuel
        = ⟨fuel, List.replicate fuel (w + 1), 0, CopyExit.exhausted⟩ := by
  intro fuel
  induction fuel with
  | zero => intro a; simp [copyGo]
  | succ f ih =>
    intro a
    simp [copyGo, hm, henv a, ih (a + 1), List.replicate_succ]
    omega

/-! ### Concrete fixtures used by witnesses -/

/-- A plain text message. -/
def mText : Message :=
  ⟨true, false, false, false, false, false, false, false, false, false, false, false⟩

/-- A message with no populated content field. -/
def mEmpty : Message :=
  ⟨false, false, false, false, false, false, false, false, false, false, false, false⟩

/-- Transport that always succeeds. -/
def envAllOk : Nat → TransportResult := fun _ => TransportResult.ok

/-- Transport that always answers `RetryAfter(3)`. -/
def envRateLimited3 : Nat → TransportResult :=
  fun _ => TransportResult.retryAfterSig 3

/-- Transport that always raises a permanent `TelegramError`. -/
def envChatNotFound : Nat → TransportResult :=
  fun _ => TransportResult.tgError (r"Bad Request: chat not found")

/-- Every gathered task returned `True`. -/
def resAllOk : String → TaskResult := fun _ => TaskResult.ok

/-- The task for channel `b` raised; the others returned `True`. -/
def resExcOnB : String → TaskResult :=
  fun ch => if ch = r"b" then TaskResult.exc else TaskResult.ok

/-- An all-zero registry. -/
def dbZero : String → ChannelRow := fun _ => ⟨0, none⟩

/-- A 25-destination snapshot. -/
def channels25 : List String := List.replicate 25 (r"c")

/-! ### Claim theorems: batch scheduler -/

/-- C1: for every destination list and batch size `b ≥ 1`, the batch
scheduler partitions the list into `ceil(n/b)` consecutive groups
(`(n + b - 1) / b`, the code's own formula), each of size at most `b`,
whose concatenation is the original ordered list with nothing lost,
duplicated or reordered; and a run dispatches exactly these groups in
order. -/
theorem c1_batch_partition (channels : List String) (b : Nat)
    (res : String → TaskResult) (hb : 1 ≤ b) :
    (chunks b channels).length = (channels.length + b - 1) / b ∧
    (∀ g ∈ chunks b channels, g.length ≤ b) ∧
    (chunks b channels).flatten = channels ∧
    dispatchedBatches (forward_message channels b res) = chunks b channels := by
  refine ⟨chunksAux_length b hb _ _ le_rfl, fun g hg => chunksAux_sizes b _ _ g hg,
    chunksAux_flatten b hb _ _ le_rfl, ?_⟩
  by_cases hc : channels.length = 0
  · have hx : channels = [] := List.length_eq_zero.mp hc
    subst hx
    simp [forward_message, dispatchedBatches, eventBatches, chunks, chunksAux]
  · unfold forward_message
    rw [if_neg hc]
    exact runBatchesAux_batches res b channels.length hb _ _ 0 le_rfl

/-- Witness for C1 at a five-element list with batch size 2. -/
theorem c1_batch_partition_witness :
    (1 ≤ 2) ∧
    (chunks 2 [r"a", r"b", r"c", r"d", r"e"]).length = (5 + 2 - 1) / 2 ∧
    (∀ g ∈ chunks 2 [r"a", r"b", r"c", r"d", r"e"], g.length ≤ 2) ∧
    (chunks 2 [r"a", r"b", r"c", r"d", r"e"]).flatten
      = [r"a", r"b", r"c", r"d", r"e"] ∧
    dispatchedBatches (forward_message [r"a", r"b", r"c", r"d", r"e"] 2 resAllOk)
      = chunks 2 [r"a", r"b", r"c", r"d", r"e"] := by
  have h := c1_batch_partition [r"a", r"b", r"c", r"d", r"e"] 2 resAllOk (by decide)
  exact ⟨by decide, h.1, h.2.1, h.2.2.1, h.2.2.2⟩

/-- C5: for every nonempty destination list and batch size `b ≥ 1`, the
run's event sequence is exactly the dispatched groups with single pacing
delays interleaved: one pacing sleep between consecutive groups, none
before the first and none after the final group. -/
theorem c5_pacing_between_batches (res : String → TaskResult) (b : Nat)
    (channels : List String) (hb : 1 ≤ b) (hne : channels ≠ []) :
    (forward_message channels b res).events =
      List.intersperse RunEvent.pace
        ((chunks b channels).map RunEvent.dispatchBatch) := by
  have hc : ¬ channels.length = 0 := by
    intro h0
    exact hne (List.length_eq_zero.mp h0)
  unfold forward_message
  rw [if_neg hc]
  exact runBatchesAux_events res b hb channels.length channels.length channels 0
    le_rfl (Nat.zero_add _) hne

/-- Witness for C5: with 25 destinations and batch size 20, exactly two
groups of sizes 20 and 5 are dispatched, with exactly one pacing delay
(between the two groups, none after the last). -/
theorem c5_pacing_between_batches_witness :
    (1 ≤ 20 ∧ channels25 ≠ []) ∧
    (forward_message channels25 20 resAllOk).events =
      List.intersperse RunEvent.pace
        ((chunks 20 channels25).map RunEvent.dispatchBatch) ∧
    (chunks 20 channels25).map List.length = [20, 5] ∧
    (forward_message channels25 20 resAllOk).events.countP
        (fun e => e == RunEvent.pace) = 1 := by
  refine ⟨⟨by decide, by decide⟩,
    c5_pacing_between_batches resAllOk 20 channels25 (by decide) (by decide),
    by decide, by decide⟩

/-- C9: a run over zero active destinations performs no dispatch and no
pacing and yields zero successes and zero failures; it is a plain early
return, not an error path. -/
theorem c9_zero_destinations (b : Nat) (res : String → TaskResult) :
    forward_message [] b res = ⟨[], 0, 0⟩ ∧
    dispatchedChannels (forward_message [] b res) = [] ∧
    (forward_message [] b res).events = [] :=
  ⟨rfl, rfl, rfl⟩

/-- C10: over a nonempty snapshot, every destination gets a copy task
dispatched (a raising task does not abort its siblings), the success
count is exactly the number of tasks that returned `True`, and
successes plus failures equal the snapshot size. -/
theorem c10_outcome_accounting (channels : List String) (b : Nat)
    (res : String → TaskResult) (hb : 1 ≤ b) (hne : channels ≠ []) :
    (forward_message channels b res).successful
        + (forward_message channels b res).failed = channels.length ∧
    (forward_message channels b res).successful
        = channels.countP (fun ch => res ch == TaskResult.ok) ∧
    dispatchedChannels (forward_message channels b res) = channels := by
  have hc : ¬ channels.length = 0 := fun h0 => hne (List.length_eq_zero.mp h0)
  unfold forward_message
  rw [if_neg hc]
  refine ⟨runBatchesAux_total res b channels.length hb _ _ 0 le_rfl,
    runBatchesAux_successful res b channels.length hb _ _ 0 le_rfl, ?_⟩
  unfold dispatchedChannels dispatchedBatches
  rw [runBatchesAux_batches res b channels.length hb _ _ 0 le_rfl]
  exact chunksAux_flatten b hb _ _ le_rfl

/-- Witness for C10: three destinations with batch size 2, the task for
channel `b` raising: 2 successes plus 1 failure equals 3, and all three
destinations were dispatched. -/
theorem c10_outcome_accounting_witness :
    (1 ≤ 2 ∧ ([r"a", r"b", r"c"] : List String) ≠ []) ∧
    (forward_message [r"a", r"b", r"c"] 2 resExcOnB).successful
        + (forward_message [r"a", r"b", r"c"] 2 resExcOnB).failed = 3 ∧
    (forward_message [r"a", r"b", r"c"] 2 resExcOnB).successful = 2 ∧
    dispatchedChannels (forward_message [r"a", r"b", r"c"] 2 resExcOnB)
      = [r"a", r"b", r"c"] := by
  have h := c10_outcome_accounting [r"a", r"b", r"c"] 2 resExcOnB (by decide) (by decide)
  refine ⟨⟨by decide, by decide⟩, h.1, ?_, h.2.2⟩
  rw [h.2.1]
  decide

/-! ### Claim theorems: classifier and per-destination copier -/

/-- C2: a message with no populated content field classifies as
unsupported; the copier exits through its `else` branch dispatching no
send, performing no sleep and no registry write; and a whole run over
any destination list therefore dispatches zero transport sends. -/
theorem c2_unsupported_never_sent (m : Message) (hm : m.supported = false) :
    classify m = ContentKind.unsupported ∧
    (∀ (env : Nat → TransportResult) (retries : Nat), 1 ≤ retries →
      copy_message_to_channel m env retries
        = ⟨0, [], 0, CopyExit.unsupportedKind⟩) ∧
    (∀ (envOf : String → Nat → TransportResult) (channels : List String),
      runSends m envOf channels = 0) := by
  refine ⟨classify_unsupported_of_not_supported m hm,
    fun env retries hr => copy_unsupported m hm env retries hr, ?_⟩
  intro envOf channels
  unfold runSends
  apply List.sum_eq_zero
  intro x hx
  obtain ⟨ch, _, rfl⟩ := List.mem_map.mp hx
  rw [copy_unsupported m hm (envOf ch) 5 (by omega)]

/-- Witness for C2 at the empty-content message. -/
theorem c2_unsupported_never_sent_witness :
    mEmpty.supported = false ∧
    classify mEmpty = ContentKind.unsupported ∧
    copy_message_to_channel mEmpty envAllOk 5
      = ⟨0, [], 0, CopyExit.unsupportedKind⟩ ∧
    runSends mEmpty (fun _ => envAllOk) [r"a", r"b"] = 0 := by
  have h := c2_unsupported_never_sent mEmpty (by decide)
  exact ⟨by decide, h.1, h.2.1 envAllOk 5 (by decide),
    h.2.2 (fun _ => envAllOk) [r"a", r"b"]⟩

/-- C3: on any attempt, first included, a `TelegramError` whose
lowercased text contains a permanent-failure phrase makes the copier
return from the permanent branch immediately: exactly the attempts up
to and including that one were sent, no registry write happened, and no
further retry is made for that destination. -/
theorem c3_permanent_error_stops_retries (m : Message)
    (env : Nat → TransportResult) (retries k : Nat) (msg : String)
    (hm : m.supported = true) (hk : k < retries)
    (henv : env k = TransportResult.tgError msg)
    (hperm : isPermanentMsg msg = true)
    (hpre : ∀ j, j < k → retryable (env j) = true) :
    (copy_message_to_channel m env retries).result = CopyExit.permanentFailure ∧
    (copy_message_to_channel m env retries).sends = k + 1 ∧
    (copy_message_to_channel m env retries).statUpdates = 0 :=
  copyGo_permanent m env retries hm retries k 0 msg hk (by simpa using henv)
    hperm (fun j hj => by simpa using hpre j hj)

/-- Witness for C3: `chat not found` on the very first of 5 attempts
stops the copier after exactly one send. -/
theorem c3_permanent_error_stops_retries_witness :
    (mText.supported = true ∧ 0 < 5 ∧
      envChatNotFound 0 = TransportResult.tgError (r"Bad Request: chat not found") ∧
      isPermanentMsg (r"Bad Request: chat not found") = true) ∧
    (copy_message_to_channel mText envChatNotFound 5).result
        = CopyExit.permanentFailure ∧
    (copy_message_to_channel mText envChatNotFound 5).sends = 1 ∧
    (copy_message_to_channel mText envChatNotFound 5).statUpdates = 0 := by
  have h := c3_permanent_error_stops_retries mText envChatNotFound 5 0
    (r"Bad Request: chat not found") (by decide) (by decide) rfl (by decide)
    (fun j hj => absurd hj (by omega))
  exact ⟨⟨by decide, by decide, rfl, by decide⟩, h.1, h.2.1, h.2.2⟩

/-- C4: a rate-limit signal carrying wait `w` makes the copier sleep
exactly `w + 1` seconds and then retry the send, the rate-limited
attempt consuming one send of the budget; with the default budget of 5,
a permanently rate-limited destination ends exhausted after exactly 5
sends and 5 sleeps of `w + 1`. -/
theorem c4_rate_limit_wait_and_budget :
    (∀ (m : Message) (env : Nat → TransportResult) (retries a fuel w : Nat),
      m.supported = true → env a = TransportResult.retryAfterSig w →
      copyGo m env retries a (fuel + 1) =
        ⟨1 + (copyGo m env retries (a + 1) fuel).sends,
         (w + 1) :: (copyGo m env retries (a + 1) fuel).sleeps,
         (copyGo m env retries (a + 1) fuel).statUpdates,
         (copyGo m env retries (a + 1) fuel).result⟩) ∧
    (∀ (m : Message) (env : Nat → TransportResult) (w : Nat),
      m.supported = true → (∀ k, env k = TransportResult.retryAfterSig w) →
      copy_message_to_channel m env 5 =
        ⟨5, List.replicate 5 (w + 1), 0, CopyExit.exhausted⟩) := by
  constructor
  · intro m env retries a fuel w hm hE
    simp [copyGo, hm, hE]
  · intro m env w hm henv
    exact copyGo_all_ratelimited m env 5 w hm henv 5 0

/-- Witness for C4 at `w = 3`: the first attempt sleeps 4 seconds and
retries; five straight rate limits exhaust the budget. -/
theorem c4_rate_limit_wait_and_budget_witness :
    (mText.supported = true ∧
      (∀ k, envRateLimited3 k = TransportResult.retryAfterSig 3)) ∧
    copyGo mText envRateLimited3 5 0 5 =
      ⟨1 + (copyGo mText envRateLimited3 5 1 4).sends,
       4 :: (copyGo mText envRateLimited3 5 1 4).sleeps,
       (copyGo mText envRateLimited3 5 1 4).statUpdates,
       (copyGo mText envRateLimited3 5 1 4).result⟩ ∧
    copy_message_to_channel mText envRateLimited3 5 =
      ⟨5, List.replicate 5 4, 0, CopyExit.exhausted⟩ := by
  refine ⟨⟨by decide, fun k => rfl⟩, ?_, ?_⟩
  · have h := c4_rate_limit_wait_and_budget.1 mText envRateLimited3 5 0 4 3
      (by decide) rfl
    simpa using h
  · have h := c4_rate_limit_wait_and_budget.2 mText envRateLimited3 3
      (by decide) (fun k => rfl)
    simpa using h

/-! ### Claim theorems: registry effect, alerting, batch-size bounds -/

/-- C7: the registry is written iff the outcome is Delivered: a
delivered copy performs exactly one `update_channel_stats`, bumping that
row's forward counter by one and stamping its last-forward time while
leaving every other row untouched; every non-delivered outcome performs
none and leaves the registry unchanged. -/
theorem c7_registry_update_iff_delivered (m : Message)
    (env : Nat → TransportResult) (retries : Nat) (db : String → ChannelRow)
    (ch : String) (now : Nat) :
    ((copy_message_to_channel m env retries).statUpdates
        = if (copy_message_to_channel m env retries).result = CopyExit.delivered
          then 1 else 0) ∧
    ((copy_message_to_channel m env retries).result = CopyExit.delivered →
      applyStatUpdates db ch now (copy_message_to_channel m env retries).statUpdates
        = update_channel_stats db ch now) ∧
    ((copy_message_to_channel m env retries).result ≠ CopyExit.delivered →
      applyStatUpdates db ch now (copy_message_to_channel m env retries).statUpdates
        = db) ∧
    (update_channel_stats db ch now ch).total_forwards
        = (db ch).total_forwards + 1 ∧
    (update_channel_stats db ch now ch).last_forward = some now ∧
    (∀ c, c ≠ ch → update_channel_stats db ch now c = db c) := by
  have hsu : (copy_message_to_channel m env retries).statUpdates
      = if (copy_message_to_channel m env retries).result = CopyExit.delivered
        then 1 else 0 :=
    copyGo_statUpdates m env retries retries 0
  refine ⟨hsu, ?_, ?_, ?_, ?_, ?_⟩
  · intro hdel
    rw [hsu, if_pos hdel]
    simp [applyStatUpdates]
  · intro hnd
    rw [hsu, if_neg hnd]
    simp [applyStatUpdates]
  · simp [update_channel_stats]
  · simp [update_channel_stats]
  · intro c hc
    simp [update_channel_stats, hc]

/-- Witness for C7: a delivered copy writes the row once; a permanent
failure writes nothing. -/
theorem c7_registry_update_iff_delivered_witness :
    (copy_message_to_channel mText envAllOk 5).result = CopyExit.delivered ∧
    applyStatUpdates dbZero (r"a") 7
        (copy_message_to_channel mText envAllOk 5).statUpdates
      = update_channel_stats dbZero (r"a") 7 ∧
    (copy_message_to_channel mText envChatNotFound 5).result ≠ CopyExit.delivered ∧
    applyStatUpdates dbZero (r"a") 7
        (copy_message_to_channel mText envChatNotFound 5).statUpdates = dbZero ∧
    (update_channel_stats dbZero (r"a") 7 (r"a")).total_forwards = 1 := by
  have h1 := c7_registry_update_iff_delivered mText envAllOk 5 dbZero (r"a") 7
  have h2 := c7_registry_update_iff_delivered mText envChatNotFound 5 dbZero (r"a") 7
  exact ⟨by decide, h1.2.1 (by decide), by decide, h2.2.2.1 (by decide), by decide⟩

/-- C6: exactly one alert is attempted when an admin is configured, the
run had destinations, and `failed / total` exceeds 0.30 (embedded as the
exact comparison `10 * failed > 3 * total`); in every other case zero
alerts are attempted.  A failing alert delivery is only logged: the
stats side of the run is identical whether the delivery fails or not. -/
theorem c6_alert_threshold (st : RunningStats) (total successful failed : Nat)
    (admin deliverFails : Bool) :
    ((finalize st total successful failed admin deliverFails).2.alertsSent = 1 ↔
      (admin = true ∧ 0 < total ∧ 10 * failed > 3 * total)) ∧
    ((finalize st total successful failed admin deliverFails).2.alertsSent = 0 ↔
      ¬ (admin = true ∧ 0 < total ∧ 10 * failed > 3 * total)) ∧
    (finalize st total successful failed admin true).1
      = (finalize st total successful failed admin false).1 ∧
    (finalize st total successful failed admin true).2.alertErrorsLogged
      = (finalize st total successful failed admin true).2.alertsSent := by
  unfold finalize alertPhase
  by_cases hc : admin = true ∧ 0 < total ∧ 10 * failed > 3 * total
  · simp [hc]
  · simp [hc]

/-- C8 counterexample: the claim that the batch size used by a run is
always within 1..50 regardless of configuration path is false — a
`BATCH_SIZE` environment value of 100 is adopted unvalidated. -/
theorem c8_counterexample :
    initBatchSize (some 100) = 100 ∧ ¬ initBatchSize (some 100) ≤ 50 := by
  decide

/-- C8 amended: the default batch size is 20; the `/setbatch` command
accepts exactly the sizes 1..50 and keeps the current size otherwise,
so a batch size that is in bounds stays in bounds under runtime
changes; only the environment-variable startup path is unchecked. -/
theorem c8_batch_size_bounds :
    initBatchSize none = 20 ∧
    (∀ current new_size : Int, 1 ≤ new_size → new_size ≤ 50 →
      setbatchUpdate current new_size = new_size) ∧
    (∀ current new_size : Int, (new_size < 1 ∨ new_size > 50) →
      setbatchUpdate current new_size = current) ∧
    (∀ current new_size : Int, 1 ≤ current → current ≤ 50 →
      1 ≤ setbatchUpdate current new_size ∧ setbatchUpdate current new_size ≤ 50) := by
  refine ⟨rfl, ?_, ?_, ?_⟩
  · intro cur ns h1 h2
    unfold setbatchUpdate
    rw [if_neg (by omega)]
  · intro cur ns h
    unfold setbatchUpdate
    rw [if_pos h]
  · intro cur ns h1 h2
    unfold setbatchUpdate
    by_cases hc : ns < 1 ∨ ns > 50
    · rw [if_pos hc]
      exact ⟨h1, h2⟩
    · rw [if_neg hc]
      omega

/-- Witness for C8 (amended): 25 is accepted, 0 is rejected keeping 20,
and an in-bounds current size stays in bounds under any request. -/
theorem c8_batch_size_bounds_witness :
    (1 ≤ (25 : Int) ∧ (25 : Int) ≤ 50 ∧ setbatchUpdate 20 25 = 25) ∧
    (((0 : Int) < 1 ∨ (0 : Int) > 50) ∧ setbatchUpdate 20 0 = 20) ∧
    (1 ≤ (20 : Int) ∧ (20 : Int) ≤ 50 ∧
      1 ≤ setbatchUpdate 20 999 ∧ setbatchUpdate 20 999 ≤ 50) := by
  have h := c8_batch_size_bounds
  have h4 := h.2.2.2 20 999 (by decide) (by decide)
  exact ⟨⟨by decide, by decide, h.2.1 20 25 (by decide) (by decide)⟩,
    ⟨Or.inl (by decide), h.2.2.1 20 0 (Or.inl (by decide))⟩,
    ⟨by decide, by decide, h4.1, h4.2⟩⟩

end AutoForward
